import Mathlib

/-!
# Verification of the URL crawler core (url-crawler-backend)

Shallow embedding of the crawl orchestration subsystem:
`internal/crawler/crawler.go` (page analyzer, link checker, worker pipeline,
queue / lifecycle controller) and the record-store operations from the `db`
package (`UpdateURLStatus`, `GetURLByID`, the `URL` record).

HTML documents are modelled as the node trees produced by the `net/html`
parser that goquery wraps: a document is the list of children of the
document root, each node is an element (lowercased tag, attribute list,
children) or a text node.  goquery selections (`Find`, `.Text()`,
`.Length()`, `.Attr`) are modelled as traversals of that tree.  The network
is modelled as an oracle (a function from address to fetch outcome) and the
record store as an association list from id to record; real time, the
per-job context timeout and goroutine interleavings are abstracted away
(a timed-out fetch surfaces as a transport error, as it does through
`client.Do`).
-/

/-- A node of a parsed HTML document (`*html.Node` of `net/html` restricted
to the parts goquery traverses): an element with tag name, attributes and
children, or a text node.  The `net/html` parser lowercases tag names. -/
inductive HNode where
  | elem (tag : String) (attrs : List (String × String)) (children : List HNode) : HNode
  | text (s : String) : HNode
deriving Repr

/-- A parsed document: the children of the document root node. -/
abbrev HDoc := List HNode

mutual
/-- Concatenated text content of a node's subtree (`goquery Text()` on a
single node: all descendant text nodes in document order). -/
def nodeText : HNode → String
  | HNode.text s => s
  | HNode.elem _ _ cs => nodesText cs

/-- Concatenated text content of a list of sibling subtrees. -/
def nodesText : List HNode → String
  | [] => ""
  | c :: cs => nodeText c ++ nodesText cs
end

mutual
/-- Preorder list of all element nodes of a subtree, each paired with the
list of tags of its proper ancestors (nearest first).  This is the node
set a goquery `Find` from the document traverses. -/
def elemsWithAnc (anc : List String) : HNode → List (List String × HNode)
  | HNode.text _ => []
  | HNode.elem t a cs =>
      (anc, HNode.elem t a cs) :: elemsListWithAnc (t :: anc) cs

/-- Preorder element list of a list of sibling subtrees. -/
def elemsListWithAnc (anc : List String) : List HNode → List (List String × HNode)
  | [] => []
  | c :: cs => elemsWithAnc anc c ++ elemsListWithAnc anc cs
end

/-- All elements of a document with their ancestor tag lists, in document
order. -/
def docElems (doc : HDoc) : List (List String × HNode) :=
  elemsListWithAnc [] doc

/-- Tag of a node (empty for text nodes). -/
def tagOf : HNode → String
  | HNode.elem t _ _ => t
  | HNode.text _ => ""

/-- First value of an attribute, if present (`goquery Selection.Attr`). -/
def attrGet (attrs : List (String × String)) (key : String) : Option String :=
  (attrs.find? (fun p => p.1 == key)).map Prod.snd

/-- Attributes of a node (empty for text nodes). -/
def attrsOf : HNode → List (String × String)
  | HNode.elem _ a _ => a
  | HNode.text _ => []

/-- `doc.Find(tag)`: all elements of the document with the given tag name,
in document order. -/
def findTag (doc : HDoc) (tag : String) : List HNode :=
  ((docElems doc).filter (fun p => tagOf p.2 == tag)).map Prod.snd

/-- `.Text()` of a selection: concatenation of each selected node's text. -/
def selText (sel : List HNode) : String :=
  sel.foldr (fun n acc => nodeText n ++ acc) ""

/-- All text of the document (`doc.Text()`). -/
def docText (doc : HDoc) : String :=
  nodesText doc

/-! ## String helpers (ASCII models of the Go `strings` functions used) -/

/-- Does the second list start with the first? -/
def charsStarts : List Char → List Char → Bool
  | [], _ => true
  | _ :: _, [] => false
  | a :: as, b :: bs => a == b && charsStarts as bs

/-- Does the second list contain the first as a contiguous sublist? -/
def charsHasSub (needle : List Char) : List Char → Bool
  | [] => charsStarts needle []
  | c :: cs => charsStarts needle (c :: cs) || charsHasSub needle cs

/-- `strings.Contains hay needle`. -/
def strContainsSub (hay needle : String) : Bool :=
  charsHasSub needle.data hay.data

/-- ASCII lowercase of a character. -/
def charLower (c : Char) : Char :=
  if Char.ofNat 65 ≤ c ∧ c ≤ Char.ofNat 90 then Char.ofNat (c.toNat + 32) else c

/-- `strings.ToLower` on the ASCII range. -/
def strLower (s : String) : String := String.mk (s.data.map charLower)

/-- `strings.HasPrefix s pre`. -/
def strStarts (s pre : String) : Bool := charsStarts pre.data s.data

/-- Drop the first `n` characters. -/
def strDrop (s : String) (n : Nat) : String := String.mk (s.data.drop n)

/-- ASCII whitespace (the characters `strings.TrimSpace` strips from the
ASCII strings this development handles). -/
def isSpaceChar (c : Char) : Bool :=
  c == ' ' || c == Char.ofNat 9 || c == Char.ofNat 10 ||
    c == Char.ofNat 11 || c == Char.ofNat 12 || c == Char.ofNat 13

/-- `strings.TrimSpace` (ASCII). -/
def strTrim (s : String) : String :=
  String.mk (((s.data.dropWhile isSpaceChar).reverse.dropWhile isSpaceChar).reverse)

/-- `strings.Split` on a one-character separator. -/
def splitChar (sep : Char) : List Char → List (List Char)
  | [] => [[]]
  | c :: cs =>
    if c == sep then [] :: splitChar sep cs
    else
      match splitChar sep cs with
      | [] => [[c]]
      | g :: gs => (c :: g) :: gs

/-- `strings.Join` with a separator. -/
def strIntercalate (sep : String) : List String → String
  | [] => ""
  | [x] => x
  | x :: y :: xs => x ++ sep ++ strIntercalate sep (y :: xs)

/-- Charwise lexicographic ≤ on ASCII strings (Go's byte order). -/
def charsLe : List Char → List Char → Bool
  | [], _ => true
  | _ :: _, [] => false
  | a :: as, b :: bs => if a == b then charsLe as bs else decide (a < b)

/-- Split at the first occurrence of `sep`, dropping it; `none` when absent
(Go `strings.Cut` / `url.split(s, sep, true)`). -/
def splitFirst (sep : Char) : List Char → List Char × Option (List Char)
  | [] => ([], none)
  | c :: cs =>
    if c == sep then ([], some cs)
    else
      let r := splitFirst sep cs
      (c :: r.1, r.2)

/-- Split at the first occurrence of `sep`, keeping it on the right side
(Go `url.split(s, sep, false)`). -/
def splitFirstKeep (sep : Char) : List Char → List Char × List Char
  | [] => ([], [])
  | c :: cs =>
    if c == sep then ([], c :: cs)
    else
      let r := splitFirstKeep sep cs
      (c :: r.1, r.2)

/-- Index of the last occurrence of a slash (`strings.LastIndexByte s '/'`,
as a char index; the strings handled are ASCII). -/
def lastSlashIdx (s : String) : Option Nat :=
  match s.data.reverse.findIdx? (fun c => c == '/') with
  | none => none
  | some i => some (s.data.length - 1 - i)

/-- `base[:strings.LastIndex(base, "/")+1]`: everything up to and including
the last slash; empty when there is no slash. -/
def upToLastSlash (s : String) : String :=
  match lastSlashIdx s with
  | none => ""
  | some i => String.mk (s.data.take (i + 1))

/-! ## Page analyzer (`crawler.go`) -/

/-- `detectLoginForm`: `doc.Find("form input[type='password']").Length() > 0`
— an `input` element with attribute `type` equal to `password` that is a
descendant of a `form` element. -/
def detectLoginForm (doc : HDoc) : Bool :=
  0 < ((docElems doc).filter (fun p =>
    tagOf p.2 == "input" && attrGet (attrsOf p.2) "type" == some "password"
      && p.1.contains "form")).length

/-- `doc.Find("!DOCTYPE")`: `!DOCTYPE` is not a valid CSS selector, so
goquery's `compileMatcher` falls back to its never-matching matcher; in
addition no element node carries that tag (the doctype is a separate node
kind the parser produces, not an element).  The selection is always
empty. -/
def findBangDoctype (doc : HDoc) : List HNode :=
  ((docElems doc).filter (fun _ => false)).map Prod.snd

/-- `detectHTMLVersion`: the dead `Find("!DOCTYPE")` branch, then a
case-insensitive search for "xhtml" in the document text, else "HTML5".
(`String.toLower` models `strings.ToLower` on the ASCII range.) -/
def detectHTMLVersion (doc : HDoc) : String :=
  if 0 < (findBangDoctype doc).length then "HTML5"
  else if strContainsSub (strLower (docText doc)) "xhtml" then "XHTML"
  else "HTML5"

/-- `countHeadings`: for i in 1..6, `headings["h"+i] = doc.Find("h"+i).Length()`.
The Go map is modelled as the association list in insertion order. -/
def countHeadings (doc : HDoc) : List (String × Nat) :=
  (List.range 6).map (fun i =>
    let tag := "h" ++ toString (i + 1)
    (tag, (findTag doc tag).length))

/-- The title computed by `parseDocument`:
`strings.TrimSpace(doc.Find("title").Text())`.  (`String.trim` models
`strings.TrimSpace` on ASCII whitespace.) -/
def parsedTitle (doc : HDoc) : String :=
  strTrim (selText (findTag doc "title"))

/-- The `href` values of `doc.Find("a[href]")` in document order
(`selection.Attr("href")` on each match). -/
def anchorHrefs (doc : HDoc) : List String :=
  (docElems doc).filterMap (fun p =>
    if tagOf p.2 == "a" then attrGet (attrsOf p.2) "href" else none)

/-! ## `net/url` model

The fields of `url.URL` that the crawler reads or that its helpers write:
Scheme, Opaque (here `opq`, the field keeps the raw after-scheme part of a
non-hierarchical URL), Host, Path, RawQuery, Fragment.  User-info,
percent-escaping and the ForceQuery flag are not modelled: the crawler
never constructs URLs that use them, and the addresses appearing in the
theorems below stay inside the modelled fragment. -/
structure GoURL where
  scheme : String := ""
  opq : String := ""
  host : String := ""
  path : String := ""
  query : String := ""
  fragment : String := ""
deriving Repr, DecidableEq

/-- Result of `url.getScheme`. -/
inductive SchemeRes where
  | noScheme : SchemeRes
  | schemeErr : SchemeRes
  | found (scheme rest : List Char) : SchemeRes

/-- `url.getScheme`'s scan: letters continue; digits and `+ - .` continue
unless first; `:` at position 0 is the "missing protocol scheme" error and
otherwise ends the scheme; anything else means the URL has no scheme. -/
def getSchemeAux (seen : List Char) : List Char → SchemeRes
  | [] => SchemeRes.noScheme
  | c :: cs =>
    if (Char.ofNat 97 ≤ c ∧ c ≤ Char.ofNat 122) ∨ (Char.ofNat 65 ≤ c ∧ c ≤ Char.ofNat 90) then
      getSchemeAux (seen ++ [c]) cs
    else if (Char.ofNat 48 ≤ c ∧ c ≤ Char.ofNat 57) ∨ c = Char.ofNat 43 ∨ c = Char.ofNat 45 ∨ c = Char.ofNat 46 then
      if seen = [] then SchemeRes.noScheme else getSchemeAux (seen ++ [c]) cs
    else if c = Char.ofNat 58 then
      if seen = [] then SchemeRes.schemeErr else SchemeRes.found seen cs
    else SchemeRes.noScheme

/-- `url.getScheme` on a string: `none` is the parse error. -/
def getScheme (s : String) : Option (String × String) :=
  match getSchemeAux [] s.data with
  | SchemeRes.schemeErr => none
  | SchemeRes.noScheme => some ("", s)
  | SchemeRes.found sch rest => some (String.mk sch, String.mk rest)

/-- `url.Parse` rejects URLs containing an ASCII control byte. -/
def containsCTL (s : String) : Bool :=
  s.data.any (fun c => c.toNat < 32 ∨ c.toNat = 127)

/-- Characters `shouldEscape` accepts unescaped inside a host
(alphanumerics, RFC 3986 unreserved and sub-delims, and the extra
characters `encodeHost` admits). -/
def isHostChar (c : Char) : Bool :=
  c.isAlphanum ||
    ['-', '.', '_', '~', '!', '$', '&', Char.ofNat 39, '(', ')', '*', '+',
      ',', ';', '=', ':', '[', ']', '<', '>', Char.ofNat 34].contains c

/-- `url.parseAuthority` without user-info validation: strip everything up
to the last `@`, then require every host character to be acceptable
(`url.parseHost`'s `unescape(host, encodeHost)` fails otherwise). -/
def parseAuthority (auth : String) : Option String :=
  let host :=
    match auth.data.reverse.findIdx? (fun c => c == Char.ofNat 64) with
    | none => auth.data
    | some i => auth.data.drop (auth.data.length - i)
  if host.all isHostChar then some (String.mk host) else none

/-- The authority/path step of `url.parse` (viaRequest = false): consume a
leading `//authority` when present, else everything is path. -/
def authAndPath (scheme rest query : String) : Option GoURL :=
  if (scheme ≠ "" ∨ ¬ strStarts rest "///") ∧ strStarts rest "//" then
    let after := (strDrop rest 2).data
    let pr := splitFirstKeep '/' after
    match parseAuthority (String.mk pr.1) with
    | none => none
    | some host =>
      some { scheme := scheme, host := host, path := String.mk pr.2, query := query }
  else
    some { scheme := scheme, path := rest, query := query }

/-- `url.parse` (viaRequest = false) on a fragment-free string: scheme,
query split, then either an opaque part (rooted at a scheme with no `/`),
the colon-in-first-segment error, or authority + path. -/
def parseNoFrag (s : String) : Option GoURL :=
  match getScheme s with
  | none => none
  | some sr =>
    let scheme := strLower sr.1
    let qp := splitFirst '?' sr.2.data
    let rest := String.mk qp.1
    let query := match qp.2 with | none => "" | some q => String.mk q
    if ¬ strStarts rest "/" then
      if scheme ≠ "" then some { scheme := scheme, opq := rest, query := query }
      else
        let seg := (splitFirst '/' rest.data).1
        if seg.contains ':' then none
        else authAndPath scheme rest query
    else authAndPath scheme rest query

/-- `url.Parse`: split the fragment at the first `#`, parse the rest.
A URL with a control byte is rejected up front. -/
def urlParse (rawURL : String) : Option GoURL :=
  if containsCTL rawURL then none
  else
    let fp := splitFirst '#' rawURL.data
    match parseNoFrag (String.mk fp.1) with
    | none => none
    | some u =>
      some { u with fragment := match fp.2 with | none => "" | some f => String.mk f }

/-- The segment loop of `url.resolvePath`: walk the `/`-separated segments
of `full`, keeping the built path `dst` (starting `"/"`), the `first`
flag, and the last segment seen. -/
def resolvePathCore : List String → String → Bool → String → String × String
  | [], dst, _, lastElem => (dst, lastElem)
  | e :: es, dst, first, _ =>
    if e = "." then resolvePathCore es dst false e
    else if e = ".." then
      let str := strDrop dst 1
      match lastSlashIdx str with
      | none => resolvePathCore es "/" true e
      | some i => resolvePathCore es ("/" ++ String.mk (str.data.take i)) first e
    else
      let dst := if first then dst ++ e else dst ++ "/" ++ e
      resolvePathCore es dst false e

/-- `url.resolvePath`: merge `ref` onto `base` (RFC 3986 §5.3 merge), then
remove dot segments; a trailing `.`/`..` keeps a trailing slash and an
initial double slash is collapsed. -/
def resolvePath (base ref : String) : String :=
  let full :=
    if ref = "" then base
    else if ¬ strStarts ref "/" then upToLastSlash base ++ ref
    else ref
  if full = "" then ""
  else
    let pr := resolvePathCore ((splitChar '/' full.data).map String.mk) "/" true ""
    let dst := if pr.2 = "." ∨ pr.2 = ".." then pr.1 ++ "/" else pr.1
    if 1 < dst.length ∧ strStarts (strDrop dst 1) "/" then strDrop dst 1 else dst

/-- `url.URL.ResolveReference` (user-info omitted): an absolute or
authority-carrying ref stands alone (with its path cleaned); an opaque ref
stands alone; otherwise the ref inherits scheme/host from the base, an
empty path-and-query inherits query (and fragment when absent), and the
path is resolved against the base path. -/
def resolveReference (u ref : GoURL) : GoURL :=
  let url0 : GoURL := { ref with scheme := if ref.scheme = "" then u.scheme else ref.scheme }
  if ref.scheme ≠ "" ∨ ref.host ≠ "" then
    { url0 with path := resolvePath ref.path "" }
  else if ref.opq ≠ "" then
    { url0 with host := "", path := "" }
  else
    let url1 :=
      if ref.path = "" ∧ ref.query = "" then
        { url0 with query := u.query,
                    fragment := if ref.fragment = "" then u.fragment else ref.fragment }
      else url0
    if ref.path = "" ∧ u.opq ≠ "" then
      { url1 with opq := u.opq }
    else
      { url1 with host := u.host, path := resolvePath u.path ref.path }

/-- `url.URL.String` (user-info, OmitHost and ForceQuery omitted):
`scheme:`, then the opaque part or `//host` + path, then `?query` and
`#fragment`. -/
def urlString (u : GoURL) : String :=
  let buf := if u.scheme ≠ "" then u.scheme ++ ":" else ""
  let buf :=
    if u.opq ≠ "" then buf ++ u.opq
    else
      let buf :=
        if u.scheme ≠ "" ∨ u.host ≠ "" then
          (if u.host ≠ "" ∨ u.path ≠ "" then buf ++ "//" else buf) ++ u.host
        else buf
      let buf :=
        if u.path ≠ "" ∧ ¬ strStarts u.path "/" ∧ u.host ≠ "" then buf ++ "/" else buf
      let buf :=
        if buf = "" ∧ (splitFirst '/' u.path.data).1.contains ':' then buf ++ "./" else buf
      buf ++ u.path
  let buf := if u.query ≠ "" then buf ++ "?" ++ u.query else buf
  if u.fragment ≠ "" then buf ++ "#" ++ u.fragment else buf

/-! ## Link checker and link analysis (`crawler.go`) -/

/-- `strconv.Itoa`. -/
def natToStr (n : Nat) : String := toString n

/-- The network as seen by the crawler: `fetch` is the pipeline's GET
(`client.Do` on the page address), `probe` the link checker's HEAD;
`probe = none` is a transport error.  A timed-out request surfaces as a
transport error, exactly as it does through `client.Do`. -/
structure Network where
  fetch : String → Option (Nat × String × HDoc)
  probe : String → Option Nat

/-- `checkLink`: a request-construction failure (`http.NewRequest` rejects
the URL) or a transport failure yields 500, otherwise the response status
code.  Never fails. -/
def checkLink (probe : String → Option Nat) (link : String) : Nat :=
  match urlParse link with
  | none => 500
  | some _ =>
    match probe link with
    | none => 500
    | some code => code

/-- The accumulator of `analyzeLinks`: internal/external counters and the
broken list (`{url, code}` with the code rendered by `strconv.Itoa`). -/
structure LinkStats where
  internal : Nat := 0
  external : Nat := 0
  broken : List (String × String) := []
deriving Repr, DecidableEq

/-- The body of the `doc.Find("a[href]").Each` loop of `analyzeLinks`,
folded over the anchor `href` values with the `linksChecked` set: skip
empty and already-seen hrefs, mark seen, parse (skip on error), resolve a
relative reference against the base, classify internal/external on the
host, and probe absolute links for the broken list. -/
def analyzeLinksAux (probe : String → Option Nat) (base : GoURL) :
    List String → List String → LinkStats → LinkStats
  | [], _, acc => acc
  | href :: hs, seen, acc =>
    if href = "" ∨ seen.contains href then analyzeLinksAux probe base hs seen acc
    else
      match urlParse href with
      | none => analyzeLinksAux probe base hs (href :: seen) acc
      | some lu0 =>
        let lu := if lu0.scheme = "" then resolveReference base lu0 else lu0
        let acc1 :=
          if lu.host ≠ "" ∧ lu.host ≠ base.host then
            { acc with external := acc.external + 1 }
          else
            { acc with internal := acc.internal + 1 }
        let acc2 :=
          if lu.scheme ≠ "" then
            let code := checkLink probe (urlString lu)
            if 400 ≤ code then
              { acc1 with broken := acc1.broken ++ [(urlString lu, natToStr code)] }
            else acc1
          else acc1
        analyzeLinksAux probe base hs (href :: seen) acc2

/-- `analyzeLinks doc baseURL`. -/
def analyzeLinks (probe : String → Option Nat) (doc : HDoc) (baseURL : GoURL) : LinkStats :=
  analyzeLinksAux probe baseURL (anchorHrefs doc) [] {}

/-- `CrawlResult` (the heading map kept as the h1..h6 association list). -/
structure CrawlResult where
  title : String
  htmlVersion : String
  headingCounts : List (String × Nat)
  internalLinks : Nat
  externalLinks : Nat
  brokenList : List (String × String)
  hasLoginForm : Bool
deriving Repr, DecidableEq

/-- `parseDocument`: parse the base address (error otherwise), then title,
version, headings, login form, and the link analysis. -/
def parseDocument (probe : String → Option Nat) (doc : HDoc) (baseAddress : String) :
    Except String CrawlResult :=
  match urlParse baseAddress with
  | none => Except.error "failed to parse base URL"
  | some baseURL =>
    let stats := analyzeLinks probe doc baseURL
    Except.ok
      { title := parsedTitle doc
        htmlVersion := detectHTMLVersion doc
        headingCounts := countHeadings doc
        internalLinks := stats.internal
        externalLinks := stats.external
        brokenList := stats.broken
        hasLoginForm := detectLoginForm doc }

/-- `crawlWithContext`: build the request (an unparsable address is the
"failed to create request" error), perform the GET (a transport error is
"failed to fetch URL: …"), require status 200 (otherwise the error is
`"HTTP <code>: <status>"`), and parse the body.  The body is modelled
already parsed: `html.Parse` never fails on any byte stream, so
`goquery.NewDocumentFromReader` errors only on reader I/O failures. -/
def crawlWithContext (net : Network) (address : String) : Except String CrawlResult :=
  match urlParse address with
  | none => Except.error "failed to create request"
  | some _ =>
    match net.fetch address with
    | none => Except.error "failed to fetch URL: request failed"
    | some r =>
      if r.1 ≠ 200 then Except.error ("HTTP " ++ natToStr r.1 ++ ": " ++ r.2.1)
      else parseDocument net.probe r.2.2 address

/-! ## Record store (`db` package) -/

namespace db

/-- `URLStatus`. -/
inductive URLStatus where
  | queued | running | done | error
deriving Repr, DecidableEq

/-- The `db.URL` record (the columns the crawler reads or writes; id,
user and timestamps omitted). `headingCounts` and `brokenList` are the
marshalled JSON strings the store holds. -/
structure URL where
  address : String
  title : String := ""
  htmlVersion : String := ""
  headingCounts : String := ""
  internalLinks : Nat := 0
  externalLinks : Nat := 0
  brokenLinks : Nat := 0
  brokenList : String := ""
  hasLoginForm : Bool := false
  status : URLStatus := URLStatus.queued
  error : String := ""
deriving Repr, DecidableEq

/-- The record store: id → record, as an association list. -/
abbrev DB := List (Nat × URL)

/-- `db.GetURLByID` (`First` by primary key; `none` models the not-found
error). -/
def GetURLByID (d : DB) (id : Nat) : Option URL :=
  (List.find? (fun p => p.1 == id) d).map Prod.snd

/-- A gorm `Updates` on the record with the given id: apply `f` to the
matching record; zero matched rows is not an error. -/
def updateRec (d : DB) (id : Nat) (f : URL → URL) : DB :=
  List.map (fun p => if p.1 == id then (p.1, f p.2) else p) d

/-- `db.UpdateURLStatus`: updates exactly the `status` and `error`
columns. -/
def UpdateURLStatus (d : DB) (id : Nat) (st : URLStatus) (errorMsg : String) : DB :=
  updateRec d id (fun u => { u with status := st, error := errorMsg })

end db

/-! ## Result persistence and the per-job pipeline (`crawler.go`) -/

/-- Insert into a key-sorted list of pairs. -/
def insertSorted (p : String × Nat) : List (String × Nat) → List (String × Nat)
  | [] => [p]
  | q :: qs => if charsLe p.1.data q.1.data then p :: q :: qs else q :: insertSorted p qs

/-- Sort pairs by key (the key order `json.Marshal` gives map keys). -/
def sortPairs : List (String × Nat) → List (String × Nat)
  | [] => []
  | p :: ps => insertSorted p (sortPairs ps)

/-- `json.Marshal` of the `map[string]int` heading counts: keys sorted,
`{"h1":1,…}`.  (String escaping is not modelled — no heading tag needs
it.) -/
def headingsJSON (hs : List (String × Nat)) : String :=
  "\x7b" ++ strIntercalate ","
    ((sortPairs hs).map
      (fun p => "\"" ++ p.1 ++ "\":" ++ natToStr p.2)) ++ "\x7d"

/-- `json.Marshal` of the broken list (`[]map[string]string`, entries
`(url, code)`): a nil slice marshals to `null`, otherwise an array of
objects with keys in sorted order (`code` before `url`).  String escaping
is not modelled — the URLs in this development need none. -/
def brokenJSON (bs : List (String × String)) : String :=
  if bs = [] then "null"
  else "[" ++ strIntercalate ","
    (bs.map (fun p =>
      "\x7b\"code\":\"" ++ p.2 ++ "\",\"url\":\"" ++ p.1 ++ "\"\x7d")) ++ "]"

/-- `updateURLWithResults`: one gorm `Updates` writing every result column
plus `status = done` and `error = ""`.  `json.Marshal` cannot fail on
these types, so the function always succeeds. -/
def updateURLWithResults (d : db.DB) (id : Nat) (r : CrawlResult) : db.DB :=
  db.updateRec d id (fun u =>
    { u with
      title := r.title
      htmlVersion := r.htmlVersion
      headingCounts := headingsJSON r.headingCounts
      internalLinks := r.internalLinks
      externalLinks := r.externalLinks
      brokenLinks := r.brokenList.length
      brokenList := brokenJSON r.brokenList
      hasLoginForm := r.hasLoginForm
      status := db.URLStatus.done
      error := "" })

/-- `processURL`: load the record (silently abort when absent), abort when
the status is not `queued`, transition to `running` with a cleared error,
crawl, and either record the error or persist the results.  The store
operations themselves are modelled reliable (their errors are only logged
by the source). -/
def processURL (net : Network) (d : db.DB) (id : Nat) : db.DB :=
  match db.GetURLByID d id with
  | none => d
  | some url =>
    if url.status ≠ db.URLStatus.queued then d
    else
      let d1 := db.UpdateURLStatus d id db.URLStatus.running ""
      match crawlWithContext net url.address with
      | Except.error e => db.UpdateURLStatus d1 id db.URLStatus.error e
      | Except.ok result => updateURLWithResults d1 id result

/-! ## Queue and lifecycle (`crawler.go` Service) -/

/-- The observable state of the crawler `Service`: the running flag, the
bounded queue buffer with its capacity, the closed/cancelled markers set
by `Stop`, the worker count and how many workers are live.  Goroutine
interleavings are abstracted: the model is the state as the mutex-guarded
sections see it. -/
structure ServiceState where
  isRunning : Bool := false
  queue : List Nat := []
  queueSize : Nat
  queueClosed : Bool := false
  cancelled : Bool := false
  workers : Nat
  liveWorkers : Nat := 0
deriving Repr, DecidableEq

/-- `Service.Start`: rejected when already running, otherwise flips the
flag and spawns the workers. -/
def Start (s : ServiceState) : Option String × ServiceState :=
  if s.isRunning then (some "crawler service is already running", s)
  else (none, { s with isRunning := true, liveWorkers := s.workers })

/-- `Service.Stop`: `nil` immediately when not running; otherwise flips
the flag, cancels the shared context, closes the queue and waits for
every worker to exit (`wg.Wait` — after it, no worker is live). -/
def Stop (s : ServiceState) : Option String × ServiceState :=
  if ¬ s.isRunning then (none, s)
  else (none, { s with isRunning := false, cancelled := true, queueClosed := true,
                       liveWorkers := 0 })

/-- Result of `NotifyNewURL`. -/
inductive SubmitResult where
  | ok | notRunning | queueFull
deriving Repr, DecidableEq

/-- `Service.NotifyNewURL`: not-running check under the read lock, then a
non-blocking channel send — it succeeds exactly when the bounded buffer
has room (the rendezvous with an already-blocked receiver is folded into
the buffer view of the channel), and takes the `default` branch
(`queue is full`) otherwise. -/
def NotifyNewURL (s : ServiceState) (id : Nat) : SubmitResult × ServiceState :=
  if ¬ s.isRunning then (SubmitResult.notRunning, s)
  else if s.queue.length < s.queueSize then
    (SubmitResult.ok, { s with queue := s.queue ++ [id] })
  else (SubmitResult.queueFull, s)

/-! ## Characterizations used by the theorems -/

/-- The resolved URLs processed by the `analyzeLinks` loop: empty,
already-seen and unparsable hrefs are skipped, relative references are
resolved against the base. -/
def resolvedLinks (base : GoURL) : List String → List String → List GoURL
  | [], _ => []
  | href :: hs, seen =>
    if href = "" ∨ seen.contains href then resolvedLinks base hs seen
    else
      match urlParse href with
      | none => resolvedLinks base hs (href :: seen)
      | some lu0 =>
        (if lu0.scheme = "" then resolveReference base lu0 else lu0) ::
          resolvedLinks base hs (href :: seen)

/-- The spec's internal-link criterion: the resolved host equals the base
host, or the resolution is host-less. -/
def specInternalLink (base lu : GoURL) : Bool :=
  lu.host == base.host || lu.host == ""

/-- The broken-list entries produced for a list of resolved links: each
link carrying a scheme is probed, and a probe result ≥ 400 contributes
`(url, code)`. -/
def brokenEntries (probe : String → Option Nat) (lus : List GoURL) : List (String × String) :=
  lus.filterMap (fun lu =>
    if lu.scheme ≠ "" then
      if 400 ≤ checkLink probe (urlString lu) then
        some (urlString lu, natToStr (checkLink probe (urlString lu)))
      else none
    else none)

/-- Modelled from the spec: "Login form detection: true if any `input`
element of type `password` exists anywhere in the document (not required
to be inside a `form`)."  Used to compare the spec's criterion with
`detectLoginForm`. -/
def specLoginFormAnywhere (doc : HDoc) : Bool :=
  0 < ((docElems doc).filter (fun p =>
    tagOf p.2 == "input" && attrGet (attrsOf p.2) "type" == some "password")).length

/-! ## Concrete fixtures for witnesses and counterexamples -/

/-- An example page at `http://example.com/`: title, headings
`<h1>A</h1><h2>B</h2><h2>C</h2>`, one link to its own host and one to a
different host, and a password input outside any form. -/
def egDoc : HDoc :=
  [HNode.elem "html" [] [
    HNode.elem "head" [] [HNode.elem "title" [] [HNode.text " My Page "]],
    HNode.elem "body" [] [
      HNode.elem "h1" [] [HNode.text "A"],
      HNode.elem "h2" [] [HNode.text "B"],
      HNode.elem "h2" [] [HNode.text "C"],
      HNode.elem "a" [("href", "http://example.com/about")] [HNode.text "own"],
      HNode.elem "a" [("href", "http://other.com/x")] [HNode.text "other"],
      HNode.elem "input" [("type", "password")] []]]]

/-- The base URL of `egDoc`. -/
def egBase : GoURL := { scheme := "http", host := "example.com", path := "/" }

/-- A document with no `html` element at all. -/
def noHtmlDoc : HDoc := [HNode.elem "body" [] [HNode.text "hi"]]

/-- A document with a `title` element in the head and a second one in the
body (the parser admits `title` in body as RCDATA, so this is a
reachable parse). -/
def twoTitleDoc : HDoc :=
  [HNode.elem "html" [] [
    HNode.elem "head" [] [HNode.elem "title" [] [HNode.text "A"]],
    HNode.elem "body" [] [HNode.elem "title" [] [HNode.text "B"]]]]

/-- A queued record for `http://example.com/` with pre-existing analysis
fields, to observe which fields a failing job touches. -/
def url0 : db.URL :=
  { address := "http://example.com/", title := "old title",
    headingCounts := "old counts", internalLinks := 3, externalLinks := 4,
    brokenLinks := 5, brokenList := "old list", hasLoginForm := true,
    status := db.URLStatus.queued, error := "old error" }

/-- A one-record store holding `url0` at id 1. -/
def db0 : db.DB := [(1, url0)]

/-- A network whose GET always answers HTTP 404. -/
def net404 : Network :=
  { fetch := fun _ => some (404, "404 Not Found", []), probe := fun _ => some 200 }

/-- A network serving `egDoc` with HTTP 200, all probes healthy. -/
def netOK : Network :=
  { fetch := fun _ => some (200, "200 OK", egDoc), probe := fun _ => some 200 }

/-- A store whose only record is already `done`. -/
def dbDone : db.DB := [(2, { url0 with status := db.URLStatus.done })]

/-- A probe answering 404 to everything. -/
def probe404 : String → Option Nat := fun _ => some 404

/-- A stopped service with room in the queue. -/
def svcStopped : ServiceState := { queueSize := 2, workers := 5 }

/-- A running service with an empty queue of capacity 2. -/
def svcRunning : ServiceState :=
  { isRunning := true, queueSize := 2, workers := 5, liveWorkers := 5 }

/-- The running service with its queue at capacity. -/
def svcFull : ServiceState := { svcRunning with queue := [8, 9] }

/-! ## Helper lemmas -/

/-- A gorm `Updates` on id is observed by a later `First` on the same id
as the field update. -/
theorem GetURLByID_updateRec (d : db.DB) (id : Nat) (f : db.URL → db.URL) :
    db.GetURLByID (db.updateRec d id f) id = (db.GetURLByID d id).map f := by
  induction d with
  | nil => rfl
  | cons p d ih =>
    by_cases h : p.1 == id
    · simp [db.updateRec, db.GetURLByID, List.find?, h]
    · simpa [db.updateRec, db.GetURLByID, List.find?, h] using ih

/-! ## C6: submit contract -/

/-- C6: submitting a job id fails with `NotRunning` whenever the pool is
not running (the state, in particular the queue, unchanged — nothing is
dropped silently); with the pool running it fails with `QueueFull` when
the bounded buffer is at capacity, and otherwise appends the id to the
queue and succeeds. -/
theorem NotifyNewURL_contract (s : ServiceState) (id : Nat) :
    (s.isRunning = false → NotifyNewURL s id = (SubmitResult.notRunning, s)) ∧
    (s.isRunning = true → s.queueSize ≤ s.queue.length →
      NotifyNewURL s id = (SubmitResult.queueFull, s)) ∧
    (s.isRunning = true → s.queue.length < s.queueSize →
      NotifyNewURL s id = (SubmitResult.ok, { s with queue := s.queue ++ [id] })) := by
  refine ⟨fun h => ?_, fun h hfull => ?_, fun h hroom => ?_⟩
  · simp [NotifyNewURL, h]
  · simp [NotifyNewURL, h, Nat.not_lt.mpr hfull]
  · simp [NotifyNewURL, h, hroom]

/-- C6 witness: the three branches at concrete states. -/
theorem NotifyNewURL_contract_witness :
    NotifyNewURL svcStopped 7 = (SubmitResult.notRunning, svcStopped) ∧
    NotifyNewURL svcFull 7 = (SubmitResult.queueFull, svcFull) ∧
    NotifyNewURL svcRunning 7 = (SubmitResult.ok, { svcRunning with queue := [7] }) :=
  ⟨(NotifyNewURL_contract svcStopped 7).1 rfl,
   (NotifyNewURL_contract svcFull 7).2.1 rfl (by decide),
   (NotifyNewURL_contract svcRunning 7).2.2 rfl (by decide)⟩

/-! ## C7: duplicate-enqueue guard -/

/-- C7: a worker dispatched a job whose record status is not `queued`
aborts before any update: the store is returned entirely unchanged (no
`running` transition, no field writes). -/
theorem processURL_not_queued_noop (net : Network) (d : db.DB) (id : Nat) (url : db.URL)
    (hget : db.GetURLByID d id = some url)
    (h : url.status ≠ db.URLStatus.queued) :
    processURL net d id = d := by
  unfold processURL
  rw [hget]
  simp [h]

/-- C7 witness: re-dispatching an already-`done` record changes nothing. -/
theorem processURL_not_queued_noop_witness :
    processURL netOK dbDone 2 = dbDone :=
  processURL_not_queued_noop netOK dbDone 2 { url0 with status := db.URLStatus.done }
    rfl (by decide)

/-! ## C8: stop idempotence -/

/-- C8: `Stop` always returns ok (`nil`); after it the running flag is
down; a first stop on a running service flips the flag, cancels, closes
the queue and drains the workers; a second stop is a no-op returning
ok. -/
theorem Stop_idempotent (s : ServiceState) :
    (Stop s).1 = none ∧
    (Stop s).2.isRunning = false ∧
    (s.isRunning = true →
      (Stop s).2 = { s with isRunning := false, cancelled := true,
                            queueClosed := true, liveWorkers := 0 }) ∧
    Stop (Stop s).2 = (none, (Stop s).2) := by
  by_cases h : s.isRunning <;>
    simp [Stop, h]

/-- C8 witness: stopping the running service drains it. -/
theorem Stop_idempotent_witness :
    (Stop svcRunning).2 = { svcRunning with isRunning := false, cancelled := true,
                                            queueClosed := true, liveWorkers := 0 } :=
  (Stop_idempotent svcRunning).2.2.1 rfl

/-! ## C2: login-form detection -/

/-- C2 counterexample: `egDoc` has an `input` of type `password` outside
any `form`; the spec's anywhere-criterion holds but `detectLoginForm` is
false — the selector `form input[type='password']` requires a `form`
ancestor. -/
theorem detectLoginForm_counterexample :
    specLoginFormAnywhere egDoc = true ∧ detectLoginForm egDoc = false := by
  decide

/-- C2 (amended): the login-form flag is true iff some `input` element of
type `password` occurs as a descendant of a `form` element. -/
theorem detectLoginForm_iff_inside_form (doc : HDoc) :
    detectLoginForm doc = true ↔
      ∃ p ∈ docElems doc, tagOf p.2 = "input" ∧
        attrGet (attrsOf p.2) "type" = some "password" ∧ "form" ∈ p.1 := by
  simp only [detectLoginForm, decide_eq_true_eq, ← List.countP_eq_length_filter,
    List.countP_pos_iff, Bool.and_eq_true, beq_iff_eq, List.contains, List.elem_iff]
  constructor
  · rintro ⟨p, hp, ⟨h1, h2⟩, h3⟩
    exact ⟨p, hp, h1, h2, h3⟩
  · rintro ⟨p, hp, h1, h2, h3⟩
    exact ⟨p, hp, ⟨h1, h2⟩, h3⟩

/-! ## C3: HTML-version classifier -/

/-- C3 counterexample: a document with no `html` element is classified
"HTML5", not the generic "HTML" the claim requires. -/
theorem detectHTMLVersion_counterexample :
    (findTag noHtmlDoc "html").length = 0 ∧ detectHTMLVersion noHtmlDoc ≠ "HTML" := by
  decide

/-- C3 (amended): the classifier never yields the generic "HTML" tag; it
yields "XHTML" exactly when the document text contains "xhtml"
case-insensitively, and "HTML5" otherwise — independent of whether an
`html` element is present (the doctype branch can never fire). -/
theorem detectHTMLVersion_characterization (doc : HDoc) :
    detectHTMLVersion doc =
      (if strContainsSub (strLower (docText doc)) "xhtml" then "XHTML" else "HTML5") ∧
    detectHTMLVersion doc ≠ "HTML" := by
  have h : findBangDoctype doc = [] := by simp [findBangDoctype]
  constructor
  · simp [detectHTMLVersion, h]
  · simp only [detectHTMLVersion, h, List.length_nil, Nat.lt_irrefl, if_false]
    split <;> decide

/-! ## C9: title extraction -/

/-- C9 counterexample: on a document with two `title` elements the code
concatenates both texts ("AB"), while the first element's trimmed text is
"A" — the title is not "the text of the first `<title>` element". -/
theorem parsedTitle_counterexample :
    ((findTag twoTitleDoc "title").map (fun t => strTrim (nodeText t))).head? = some "A" ∧
    parsedTitle twoTitleDoc = "AB" ∧ parsedTitle twoTitleDoc ≠ "A" := by
  decide

/-- C9 (amended): the title of a parsed page (also as it reaches the
CrawlResult) is the whitespace-trimmed concatenation of the texts of all
`title` elements; it equals the first title's trimmed text when exactly
one `title` is present, and is empty when none is. -/
theorem parsedTitle_spec (doc : HDoc) :
    (findTag doc "title" = [] → parsedTitle doc = "") ∧
    (∀ t, findTag doc "title" = [t] → parsedTitle doc = strTrim (nodeText t)) ∧
    parsedTitle doc = strTrim (selText (findTag doc "title")) ∧
    (∀ (probe : String → Option Nat) (addr : String) (r : CrawlResult),
      parseDocument probe doc addr = Except.ok r → r.title = parsedTitle doc) := by
  refine ⟨fun h => ?_, fun t h => ?_, rfl, fun probe addr r h => ?_⟩
  · rw [parsedTitle, h]; rfl
  · rw [parsedTitle, h]
    show strTrim (nodeText t ++ "") = strTrim (nodeText t)
    rw [String.append_empty]
  · unfold parseDocument at h
    cases hp : urlParse addr with
    | none => rw [hp] at h; exact absurd h (by simp)
    | some base =>
      rw [hp] at h
      cases h
      rfl

/-- C9 witness: on the single-title page the title is the first (only)
title's trimmed text. -/
theorem parsedTitle_spec_witness :
    parsedTitle egDoc = strTrim (nodeText (HNode.elem "title" [] [HNode.text " My Page "])) :=
  (parsedTitle_spec egDoc).2.1 (HNode.elem "title" [] [HNode.text " My Page "]) rfl

/-! ## C10: heading counts -/

/-- C10: the heading-counts mapping has exactly the keys h1..h6 in order,
each key mapped to the number of elements with that tag anywhere in the
document; on `<h1>A</h1><h2>B</h2><h2>C</h2>` it is
{h1:1, h2:2, h3:0, h4:0, h5:0, h6:0}. -/
theorem countHeadings_spec :
    (∀ doc : HDoc,
      (countHeadings doc).map Prod.fst = ["h1", "h2", "h3", "h4", "h5", "h6"] ∧
      ∀ pr ∈ countHeadings doc,
        pr.2 = (docElems doc).countP (fun q => tagOf q.2 == pr.1)) ∧
    countHeadings egDoc =
      [("h1", 1), ("h2", 2), ("h3", 0), ("h4", 0), ("h5", 0), ("h6", 0)] := by
  refine ⟨fun doc => ⟨rfl, ?_⟩, by decide⟩
  intro pr hpr
  have hred : countHeadings doc =
      [("h1", (findTag doc "h1").length), ("h2", (findTag doc "h2").length),
       ("h3", (findTag doc "h3").length), ("h4", (findTag doc "h4").length),
       ("h5", (findTag doc "h5").length), ("h6", (findTag doc "h6").length)] := rfl
  rw [hred] at hpr
  simp only [List.mem_cons, List.not_mem_nil, or_false] at hpr
  rcases hpr with h | h | h | h | h | h <;> subst h <;>
    simp [findTag, List.countP_eq_length_filter]

/-- C10 witness: the h2 count of the example page really is the number of
h2 elements in its node list. -/
theorem countHeadings_spec_witness :
    2 = (docElems egDoc).countP (fun q => tagOf q.2 == "h2") :=
  (countHeadings_spec.1 egDoc).2 ("h2", 2) (by decide)

/-! ## C4/C5: link classification and broken-link collection -/

/-- The `analyzeLinks` loop computes, over the resolved links of the href
list: the count classified internal, the count classified external, and
the broken entries, appended to the incoming accumulator. -/
theorem analyzeLinksAux_characterization (probe : String → Option Nat) (base : GoURL) :
    ∀ (hs seen : List String) (acc : LinkStats),
      analyzeLinksAux probe base hs seen acc =
        { internal := acc.internal +
            (resolvedLinks base hs seen).countP (fun lu => specInternalLink base lu),
          external := acc.external +
            (resolvedLinks base hs seen).countP (fun lu => ! specInternalLink base lu),
          broken := acc.broken ++ brokenEntries probe (resolvedLinks base hs seen) } := by
  intro hs
  induction hs with
  | nil =>
    intro seen acc
    simp [analyzeLinksAux, resolvedLinks, brokenEntries]
  | cons href hs ih =>
    intro seen acc
    by_cases hskip : href = "" ∨ seen.contains href
    · rw [analyzeLinksAux, resolvedLinks, if_pos hskip, if_pos hskip, ih]
    · rw [analyzeLinksAux, resolvedLinks, if_neg hskip, if_neg hskip]
      cases hparse : urlParse href with
      | none => rw [ih]
      | some lu0 =>
        by_cases hext : (if lu0.scheme = "" then resolveReference base lu0 else lu0).host ≠ "" ∧
            (if lu0.scheme = "" then resolveReference base lu0 else lu0).host ≠ base.host
        · have hb : specInternalLink base
              (if lu0.scheme = "" then resolveReference base lu0 else lu0) = false := by
            simp only [specInternalLink, Bool.or_eq_false_iff, beq_eq_false_iff_ne]
            exact ⟨hext.2, hext.1⟩
          by_cases hsch : (if lu0.scheme = "" then resolveReference base lu0 else lu0).scheme ≠ ""
          · by_cases hbrk : 400 ≤ checkLink probe
                (urlString (if lu0.scheme = "" then resolveReference base lu0 else lu0))
            · simp [ih, hext, hsch, hbrk, hb, List.countP_cons, brokenEntries, List.append_assoc]
              try omega
            · simp [ih, hext, hsch, hbrk, hb, List.countP_cons, brokenEntries, List.append_assoc]
              try omega
          · simp [ih, hext, hsch, hb, List.countP_cons, brokenEntries, List.append_assoc]
            try omega
        · have hb : specInternalLink base
              (if lu0.scheme = "" then resolveReference base lu0 else lu0) = true := by
            simp only [specInternalLink, Bool.or_eq_true, beq_iff_eq]
            rcases not_and_or.mp hext with h | h
            · exact Or.inr (not_not.mp h)
            · exact Or.inl (not_not.mp h)
          by_cases hsch : (if lu0.scheme = "" then resolveReference base lu0 else lu0).scheme ≠ ""
          · by_cases hbrk : 400 ≤ checkLink probe
                (urlString (if lu0.scheme = "" then resolveReference base lu0 else lu0))
            · simp [ih, hext, hsch, hbrk, hb, List.countP_cons, brokenEntries, List.append_assoc]
              try omega
            · simp [ih, hext, hsch, hbrk, hb, List.countP_cons, brokenEntries, List.append_assoc]
              try omega
          · simp [ih, hext, hsch, hb, List.countP_cons, brokenEntries, List.append_assoc]
            try omega

/-- C4: a processed link is counted internal exactly when its resolved
host equals the base host or the resolution is host-less, and external
otherwise; the example page with one link to its own host and one to a
different host yields internal = 1, external = 1. -/
theorem analyzeLinks_classification :
    (∀ (probe : String → Option Nat) (doc : HDoc) (base : GoURL),
      (analyzeLinks probe doc base).internal =
        ((resolvedLinks base (anchorHrefs doc) []).filter
          (fun lu => lu.host == base.host || lu.host == "")).length ∧
      (analyzeLinks probe doc base).external =
        ((resolvedLinks base (anchorHrefs doc) []).filter
          (fun lu => !(lu.host == base.host || lu.host == ""))).length) ∧
    (analyzeLinks (fun _ => some 200) egDoc egBase).internal = 1 ∧
    (analyzeLinks (fun _ => some 200) egDoc egBase).external = 1 := by
  refine ⟨fun probe doc base => ?_, by decide, by decide⟩
  rw [analyzeLinks, analyzeLinksAux_characterization]
  constructor
  · simp [specInternalLink, List.countP_eq_length_filter]
  · simp [specInternalLink, List.countP_eq_length_filter]

/-- C5: the link checker is total — request-construction failures and
transport failures are classified 500, any response yields its status
code — and every probed resolved link whose result is ≥ 400 contributes
its `(url, code)` entry to the broken list. -/
theorem checkLink_contract :
    (∀ (probe : String → Option Nat) (link : String),
      urlParse link = none ∨ probe link = none → checkLink probe link = 500) ∧
    (∀ (probe : String → Option Nat) (link : String) (u : GoURL) (code : Nat),
      urlParse link = some u → probe link = some code → checkLink probe link = code) ∧
    (∀ (probe : String → Option Nat) (doc : HDoc) (base lu : GoURL),
      lu ∈ resolvedLinks base (anchorHrefs doc) [] → lu.scheme ≠ "" →
      400 ≤ checkLink probe (urlString lu) →
      (urlString lu, natToStr (checkLink probe (urlString lu))) ∈
        (analyzeLinks probe doc base).broken) := by
  refine ⟨fun probe link h => ?_, fun probe link u code hu hc => ?_,
    fun probe doc base lu hmem hsch hcode => ?_⟩
  · rcases h with h | h
    · simp [checkLink, h]
    · unfold checkLink
      cases hp : urlParse link with
      | none => rfl
      | some u => simp [h]
  · simp [checkLink, hu, hc]
  · rw [analyzeLinks, analyzeLinksAux_characterization]
    simp only [brokenEntries, List.nil_append, List.mem_filterMap]
    exact ⟨lu, hmem, by simp [hsch, hcode]⟩

/-- C5 witness: an unparsable link is classified 500; with every probe
answering 404, the example page's own absolute link is reported broken
with entry (url, "404"). -/
theorem checkLink_contract_witness :
    checkLink probe404 ":bad" = 500 ∧
    checkLink probe404 "http://example.com/about" = 404 ∧
    ("http://example.com/about", "404") ∈ (analyzeLinks probe404 egDoc egBase).broken :=
  ⟨checkLink_contract.1 probe404 ":bad" (Or.inl (by decide)),
   checkLink_contract.2.1 probe404 "http://example.com/about"
     { scheme := "http", host := "example.com", path := "/about" } 404 (by decide) rfl,
   checkLink_contract.2.2 probe404 egDoc egBase
     { scheme := "http", host := "example.com", path := "/about" }
     (by decide) (by decide) (by decide)⟩

/-! ## C1: per-job status transitions and the failure frame -/

/-- Any message of the form "HTTP 404: …" contains "404". -/
theorem contains404 (s : String) : strContainsSub ("HTTP 404: " ++ s) "404" = true := by
  have h : ("HTTP 404: " ++ s).data
      = 'H' :: 'T' :: 'T' :: 'P' :: ' ' :: '4' :: '0' :: '4' :: ':' :: ' ' :: s.data := by
    rw [String.data_append]
    rfl
  rw [strContainsSub, h]
  show charsHasSub ('4' :: '0' :: '4' :: []) _ = true
  simp +decide [charsHasSub, charsStarts]

/-- C1: for a queued record, a failing crawl (any transport error or
non-200 status surfaces as a crawl error) drives the record to status
`error` carrying exactly the error message while every analysis field
keeps its prior value; an HTTP 404 in particular yields a message
containing "404"; a successful crawl persists the results with status
`done` and a cleared error field. -/
theorem processURL_frame_and_completion (net : Network) (d : db.DB) (id : Nat) (url : db.URL)
    (hget : db.GetURLByID d id = some url)
    (hq : url.status = db.URLStatus.queued) :
    (∀ e, crawlWithContext net url.address = Except.error e →
      db.GetURLByID (processURL net d id) id =
        some { url with status := db.URLStatus.error, error := e }) ∧
    (∀ stext body, urlParse url.address ≠ none →
      net.fetch url.address = some (404, stext, body) →
      db.GetURLByID (processURL net d id) id =
        some { url with status := db.URLStatus.error, error := "HTTP 404: " ++ stext } ∧
      strContainsSub ("HTTP 404: " ++ stext) "404" = true) ∧
    (∀ r, crawlWithContext net url.address = Except.ok r →
      db.GetURLByID (processURL net d id) id =
        some { url with
          title := r.title, htmlVersion := r.htmlVersion,
          headingCounts := headingsJSON r.headingCounts,
          internalLinks := r.internalLinks, externalLinks := r.externalLinks,
          brokenLinks := r.brokenList.length, brokenList := brokenJSON r.brokenList,
          hasLoginForm := r.hasLoginForm,
          status := db.URLStatus.done, error := "" }) := by
  have hstep : processURL net d id =
      match crawlWithContext net url.address with
      | Except.error e =>
          db.UpdateURLStatus (db.UpdateURLStatus d id db.URLStatus.running "") id
            db.URLStatus.error e
      | Except.ok result =>
          updateURLWithResults (db.UpdateURLStatus d id db.URLStatus.running "") id result := by
    unfold processURL
    rw [hget]
    simp [hq]
  have herr : ∀ e, crawlWithContext net url.address = Except.error e →
      db.GetURLByID (processURL net d id) id =
        some { url with status := db.URLStatus.error, error := e } := by
    intro e he
    rw [hstep, he]
    show db.GetURLByID (db.updateRec (db.updateRec d id _) id _) id = _
    rw [GetURLByID_updateRec, GetURLByID_updateRec, hget]
    rfl
  refine ⟨herr, fun stext body hparse hfetch => ⟨herr _ ?_, contains404 stext⟩,
    fun r hok => ?_⟩
  · unfold crawlWithContext
    cases hp : urlParse url.address with
    | none => exact absurd hp hparse
    | some u =>
      rw [hfetch]
      show (if (404 : Nat) ≠ 200 then Except.error ("HTTP " ++ natToStr 404 ++ ": " ++ stext)
          else parseDocument net.probe body url.address) = Except.error ("HTTP 404: " ++ stext)
      rw [if_pos (by decide)]
      show Except.error ("HTTP " ++ natToStr 404 ++ ": " ++ stext) = _
      have : "HTTP " ++ natToStr 404 ++ ": " ++ stext = "HTTP 404: " ++ stext := by
        have h4 : (natToStr 404).data = ['4', '0', '4'] := rfl
        have hd : ("HTTP " ++ natToStr 404 ++ ": " ++ stext).data = ("HTTP 404: " ++ stext).data := by
          simp [String.data_append, h4]
        exact congrArg String.mk (by simpa using hd)
      rw [this]
  · rw [hstep, hok]
    show db.GetURLByID (db.updateRec (db.updateRec d id _) id _) id = _
    rw [GetURLByID_updateRec, GetURLByID_updateRec, hget]
    rfl

/-- C1 witness: on the concrete store, the 404 network drives record 1 to
status `error` with message "HTTP 404: 404 Not Found" and untouched
analysis fields; the healthy network persists the example page's results
with status `done` and a cleared error. -/
theorem processURL_frame_and_completion_witness :
    db.GetURLByID (processURL net404 db0 1) 1 =
      some { url0 with status := db.URLStatus.error, error := "HTTP 404: 404 Not Found" } ∧
    db.GetURLByID (processURL netOK db0 1) 1 =
      some { url0 with
        title := "My Page", htmlVersion := "HTML5",
        headingCounts := "\x7b\"h1\":1,\"h2\":2,\"h3\":0,\"h4\":0,\"h5\":0,\"h6\":0\x7d",
        internalLinks := 1, externalLinks := 1,
        brokenLinks := 0, brokenList := "null", hasLoginForm := false,
        status := db.URLStatus.done, error := "" } :=
  ⟨((processURL_frame_and_completion net404 db0 1 url0 rfl rfl).2.1 "404 Not Found" []
      (by decide) rfl).1,
   (processURL_frame_and_completion netOK db0 1 url0 rfl rfl).2.2
     { title := "My Page", htmlVersion := "HTML5",
       headingCounts := [("h1", 1), ("h2", 2), ("h3", 0), ("h4", 0), ("h5", 0), ("h6", 0)],
       internalLinks := 1, externalLinks := 1, brokenList := [], hasLoginForm := false } rfl⟩
